import Mathlib

/-!
Verification of the content, pagination and SEO core of a statically
generated blog.  JavaScript strings are modelled as lists of characters,
JavaScript numbers occurring here (array lengths, page numbers, page
sizes) as natural numbers, and `Date` values by the strings that denote
them.  Each definition is a direct embedding of one function of the
source; the functions whose bodies read the module-level corpus or the
site configuration are additionally factored through an explicitly
parametrised version (suffix `With`) so that properties can be stated
for an arbitrary corpus, as the specification does.
-/

namespace Blog

/-- JavaScript strings, modelled as lists of characters. -/
abbrev Str := List Char

/-- `s.startsWith(p)` on JavaScript strings. -/
def jsStartsWith (s p : Str) : Bool := p.isPrefixOf s

/-- `s.endsWith(p)` on JavaScript strings. -/
def jsEndsWith (s p : Str) : Bool := p.isSuffixOf s

/-- `String(n)`: the decimal rendering of a natural number. -/
def jsString (n : Nat) : Str := Nat.toDigits 10 n

/-- `arr.slice(b, e)` on JavaScript arrays, for `0 ≤ b ≤ e`:
the elements with indices in `[b, e)`. -/
def jsSlice (l : List α) (b e : Nat) : List α := (l.drop b).take (e - b)

/-- The `Post` record of src/types/post.ts.  The `Category` type that
src/types/post.ts imports is not exported by src/lib/site-config.ts;
following the spec, a category is a string identifier, and the field is
optional. -/
structure Post where
  slug : Str
  title : Str
  description : Str
  date : Str
  category : Option Str := none
  content : Str
deriving DecidableEq, Repr

/-- The `PaginatedPosts` record of src/types/post.ts. -/
structure PaginatedPosts where
  posts : List Post
  currentPage : Nat
  totalPage : Nat
deriving DecidableEq, Repr

/-- The shape of the `SITE_CONFIG` object of src/lib/site-config.ts. -/
structure SiteConfig where
  title : Str
  description : Str
  author : Str
  url : Str
  postsPerPage : Nat
deriving DecidableEq, Repr

/-- `SITE_CONFIG` from src/lib/site-config.ts.  `env` models the optional
`NEXT_PUBLIC_SITE_URL` environment variable (`none` when unset), to which
the `url` field falls back with `|| 'http://localhost:3000'`. -/
def SITE_CONFIG (env : Option Str) : SiteConfig where
  title := "Long Nguyen blog".toList
  description := "Personal blog by Long Nguyen".toList
  author := "Long Nguyen".toList
  url := env.getD ("http://localhost:3000".toList)
  postsPerPage := 10

/-- `getAllPosts` from src/unnamed/part_001: it returns the empty array. -/
def getAllPosts : List Post := []

/-- The body of `getPaginatedPosts` (src/unnamed/part_001) with the corpus
returned by `getAllPosts` and the configured `postsPerPage` made explicit
parameters, so that the pagination arithmetic can be stated for an
arbitrary corpus — the spec's `paginate(orderedPosts, page, pageSize)`.
`Math.ceil(allPosts.length / postsPerPage)` becomes its value on
naturals, `(allPosts.length + postsPerPage - 1) / postsPerPage`. -/
def getPaginatedPostsWith (allPosts : List Post) (postsPerPage : Nat)
    (page : Nat) : PaginatedPosts :=
  let totalPages := (allPosts.length + postsPerPage - 1) / postsPerPage
  let startIndex := (page - 1) * postsPerPage
  let posts := jsSlice allPosts startIndex (startIndex + postsPerPage)
  { posts := posts, currentPage := page, totalPage := totalPages }

/-- `getPaginatedPosts` from src/unnamed/part_001: the corpus is
`getAllPosts()` and the page size is `SITE_CONFIG.postsPerPage`. -/
def getPaginatedPosts (env : Option Str) (page : Nat := 1) : PaginatedPosts :=
  getPaginatedPostsWith getAllPosts (SITE_CONFIG env).postsPerPage page

/-- `getPostBySlug` from src/unnamed/part_001: it returns `null` for
every slug. -/
def getPostBySlug (_slug : Str) : Option Post := none

/-- `getCanonicalUrl` from src/lib/seo-utils.ts. -/
def getCanonicalUrl (env : Option Str) (path : Str) : Str :=
  let normalizedPath :=
    if jsStartsWith path ("/".toList) then path else "/".toList ++ path
  let pathWithSlash :=
    if jsEndsWith normalizedPath ("/".toList) then normalizedPath
    else normalizedPath ++ "/".toList
  (SITE_CONFIG env).url ++ pathWithSlash

/-- The optional `openGraph` argument of `createMetadata`
(src/lib/seo-utils.ts).  The source field `type`, a `'website' |
'article'` string, is named `ogType` here because `type` is a Lean
keyword. -/
structure OpenGraphOptions where
  images : Option (List Str) := none
  ogType : Option Str := none
  publishedTime : Option Str := none
  authors : Option (List Str) := none
deriving DecidableEq, Repr

/-- The `openGraph` block built by `createMetadata` when its `openGraph`
argument is present.  The conditional spreads `...(openGraph.images &&
{...})` of the source become `Option`-valued fields. -/
structure OpenGraphBlock where
  title : Str
  description : Str
  url : Str
  siteName : Str
  locale : Str
  ogType : Str
  images : Option (List Str)
  publishedTime : Option Str
  authors : Option (List Str)
deriving DecidableEq, Repr

/-- The `twitter` block built by `createMetadata`. -/
structure TwitterBlock where
  card : Str
  title : Str
  description : Str
deriving DecidableEq, Repr

/-- The `alternates` block of a metadata record. -/
structure Alternates where
  canonical : Str
deriving DecidableEq, Repr

/-- The metadata record returned by `createMetadata`: the fields of the
`next` `Metadata` type that src/lib/seo-utils.ts populates. -/
structure Metadata where
  title : Str
  description : Str
  alternates : Alternates
  openGraph : Option OpenGraphBlock
  twitter : TwitterBlock
deriving DecidableEq, Repr

/-- The `options` argument of `createMetadata`. -/
structure MetadataOptions where
  title : Str
  description : Str
  path : Str
  openGraph : Option OpenGraphOptions := none
deriving DecidableEq, Repr

/-- `createMetadata` from src/lib/seo-utils.ts. -/
def createMetadata (env : Option Str) (options : MetadataOptions) : Metadata :=
  let canonical := getCanonicalUrl env options.path
  { title := options.title
    description := options.description
    alternates := { canonical := canonical }
    openGraph := options.openGraph.map fun og =>
      { title := options.title
        description := options.description
        url := canonical
        siteName := (SITE_CONFIG env).title
        locale := "vi_VN".toList
        ogType := og.ogType.getD ("website".toList)
        images := og.images
        publishedTime := og.publishedTime
        authors := og.authors }
    twitter :=
      { card := "summary".toList
        title := options.title
        description := options.description } }

/-- One entry of the result of `sitemap` (src/app/layout.tsx).  The
`Date` values are modelled by the strings denoting them. -/
structure SitemapEntry where
  url : Str
  lastModified : Str
  changeFrequency : Str
  priority : ℚ
deriving DecidableEq, Repr

/-- The body of `sitemap` from src/app/layout.tsx, with the corpus
returned by `getAllPosts` made an explicit parameter; `now` models the
build-time `new Date()`, and `new Date(post.date)` is modelled by
`post.date`. -/
def sitemapWith (env : Option Str) (now : Str) (posts : List Post) :
    List SitemapEntry :=
  let baseUrl := (SITE_CONFIG env).url
  let routes : List SitemapEntry :=
    [{ url := baseUrl, lastModified := now,
       changeFrequency := "weekly".toList, priority := 1 }]
  let postRoutes := posts.map fun post =>
    { url := baseUrl ++ "/posts/".toList ++ post.slug
      lastModified := post.date
      changeFrequency := "monthly".toList
      priority := (8 : ℚ) / 10 }
  routes ++ postRoutes

/-- `sitemap` from src/app/layout.tsx: the corpus is `getAllPosts()`. -/
def sitemap (env : Option Str) (now : Str) : List SitemapEntry :=
  sitemapWith env now getAllPosts

/-- One element of the result of `generateStaticParams`
(src/unnamed/part_003). -/
structure PageParam where
  pageNum : Str
deriving DecidableEq, Repr

/-- The body of `generateStaticParams` from src/unnamed/part_003 with
the corpus made an explicit parameter.  `Array.from({length: minPages},
(_, i) => ({pageNum: String(i + 2)}))` becomes a map over
`List.range minPages`; `Math.max(totalPage - 1, 1)` on naturals is
`max (totalPage - 1) 1`, which agrees with the source for every
`totalPage ≥ 0`. -/
def generateStaticParamsWith (env : Option Str) (allPosts : List Post) :
    List PageParam :=
  let totalPage :=
    (getPaginatedPostsWith allPosts (SITE_CONFIG env).postsPerPage 1).totalPage
  let minPages := max (totalPage - 1) 1
  (List.range minPages).map fun i => { pageNum := jsString (i + 2) }

/-- `generateStaticParams` from src/unnamed/part_003: the corpus is the
one read by `getPaginatedPosts(1)`. -/
def generateStaticParams (env : Option Str) : List PageParam :=
  generateStaticParamsWith env getAllPosts

/-- Modelled from the spec (§4.4): the input path is prefixed with `/`
if missing and suffixed with `/` if missing.  Stated separately from
`getCanonicalUrl` so that the code's normalization can be compared with
the spec's description of it. -/
def specNormalizePath (path : Str) : Str :=
  let withLead :=
    if jsStartsWith path ("/".toList) then path else "/".toList ++ path
  if jsEndsWith withLead ("/".toList) then withLead else withLead ++ "/".toList

/-- A concrete post, used to build test corpora. -/
def testPost (n : Nat) : Post where
  slug := jsString n
  title := "Post ".toList ++ jsString n
  description := "About post ".toList ++ jsString n
  date := "2024-01-".toList ++ jsString n
  category := some ("notes".toList)
  content := "Body ".toList ++ jsString n

/-- A concrete corpus of `n` posts with pairwise distinct slugs. -/
def testCorpus (n : Nat) : List Post := (List.range n).map testPost

/-- Singleton prepended: a path that starts with a slash character
still starts with the slash string. -/
lemma startsWith_cons_slash (p : Str) : jsStartsWith ('/' :: p) ['/'] = true := by
  simp [jsStartsWith, List.isPrefixOf]

/-- Appending a slash makes a path end with a slash. -/
lemma endsWith_append_slash (p : Str) :
    jsEndsWith (p ++ ['/']) ['/'] = true := by
  simp [jsEndsWith, List.isSuffixOf, List.reverse_append, List.isPrefixOf]

/-- Prepending one character does not change whether a nonempty path
ends with a slash. -/
lemma endsWith_cons (c : Char) (p : Str) (h : p ≠ []) :
    jsEndsWith (c :: p) ['/'] = jsEndsWith p ['/'] := by
  have hrev : p.reverse ≠ [] := by simpa using h
  obtain ⟨q, qs, hq⟩ := List.exists_cons_of_ne_nil hrev
  simp [jsEndsWith, List.isSuffixOf, List.reverse_cons, hq, List.isPrefixOf]

/-- Appending a slash does not change whether a nonempty path starts
with a slash. -/
lemma startsWith_append_slash (c : Char) (cs : Str) :
    jsStartsWith ((c :: cs) ++ ['/']) ['/'] = jsStartsWith (c :: cs) ['/'] := by
  simp [jsStartsWith, List.isPrefixOf]

/-- On a nonempty path with neither a leading nor a trailing slash,
`getCanonicalUrl` adds both and prepends the configured base URL. -/
lemma canonical_of_plain (env : Option Str) (p : Str) (hne : p ≠ [])
    (hs : jsStartsWith p ['/'] = false)
    (he : jsEndsWith p ['/'] = false) :
    getCanonicalUrl env p = (SITE_CONFIG env).url ++ '/' :: p ++ ['/'] := by
  have h1 : jsEndsWith ('/' :: p) ['/'] = false := by
    rw [endsWith_cons _ _ hne, he]
  simp [getCanonicalUrl, hs, h1, List.append_assoc]

/-- Claim C1, counterexample: on the empty corpus with the configured
page size 10, the code computes `totalPage = Math.ceil(0 / 10) = 0`,
not the value `1` that the claim asserts — there is no flooring of
`totalPage` to at least 1. -/
theorem totalPage_zero_on_empty_corpus :
    (getPaginatedPostsWith [] 10 1).totalPage = 0
    ∧ ¬ (getPaginatedPostsWith [] 10 1).totalPage = 1 := by
  decide

/-- Claim C1, as amended: for every corpus and every page size greater
than zero, `totalPage` is exactly the ceiling of `N / pageSize` — the
least `t` with `N ≤ pageSize * t`, pinned by `pageSize * (t - 1) < N`
for nonempty corpora — and it is `0`, not `1`, when `N = 0`. -/
theorem totalPage_is_ceil (posts : List Post) (size page : Nat) (hs : 0 < size) :
    posts.length ≤ size * (getPaginatedPostsWith posts size page).totalPage
    ∧ (0 < posts.length →
        size * ((getPaginatedPostsWith posts size page).totalPage - 1) < posts.length)
    ∧ (posts.length = 0 → (getPaginatedPostsWith posts size page).totalPage = 0) := by
  have ht : (getPaginatedPostsWith posts size page).totalPage
      = posts.length ⌈/⌉ size := by
    simp [getPaginatedPostsWith, Nat.ceilDiv_eq_add_pred_div]
  have hle : posts.length ≤ size * (posts.length ⌈/⌉ size) := by
    simpa [smul_eq_mul] using le_smul_ceilDiv (b := posts.length) hs
  refine ⟨by rw [ht]; exact hle, ?_, ?_⟩
  · intro hn
    rw [ht]
    by_contra h
    push_neg at h
    have h1 : posts.length ⌈/⌉ size ≤ posts.length ⌈/⌉ size - 1 :=
      (ceilDiv_le_iff_le_smul hs).2 (by simpa [smul_eq_mul] using h)
    have h0 : 0 < posts.length ⌈/⌉ size := by
      rcases Nat.eq_zero_or_pos (posts.length ⌈/⌉ size) with h' | h'
      · rw [h'] at hle; omega
      · exact h'
    omega
  · intro h0
    rw [ht, h0]
    simp

/-- Witness for `totalPage_is_ceil` at a corpus of 25 posts and page
size 10: `25 ≤ 10 * totalPage` (indeed `totalPage = 3`). -/
theorem totalPage_is_ceil_witness :
    (testCorpus 25).length ≤ 10 * (getPaginatedPostsWith (testCorpus 25) 10 1).totalPage :=
  (totalPage_is_ceil (testCorpus 25) 10 1 (by decide)).1

/-- Claim C2, counterexample: on a corpus of 11 posts (each carrying a
category) the pagination arithmetic yields `totalPage = 2`, so the
claim requires a sitemap entry for the paginated index route `/page/2`
and one per category route, yet the sitemap contains neither: its URLs
are only the base URL and the post URLs. -/
theorem sitemap_misses_page_and_category_routes :
    (getPaginatedPostsWith (testCorpus 11) 10 1).totalPage = 2
    ∧ (((sitemapWith (some ("https://example.com".toList)) ("2026-01-01".toList)
          (testCorpus 11)).map SitemapEntry.url).contains
        (getCanonicalUrl (some ("https://example.com".toList))
          ("/page/".toList ++ jsString 2))) = false
    ∧ (((sitemapWith (some ("https://example.com".toList)) ("2026-01-01".toList)
          (testCorpus 11)).map SitemapEntry.url).contains
        (getCanonicalUrl (some ("https://example.com".toList))
          ("/category/notes".toList))) = false := by
  decide

/-- Claim C2, as amended: the sitemap contains exactly one entry for
the root index route followed by one entry per post with URL
`baseUrl ++ "/posts/" ++ slug`, in corpus order; it contains no
paginated index routes and no category routes, and its URLs are
pairwise distinct whenever the slugs are. -/
theorem sitemap_root_and_posts_only (env : Option Str) (now : Str)
    (posts : List Post) :
    (sitemapWith env now posts).map SitemapEntry.url
      = (SITE_CONFIG env).url ::
          posts.map (fun p => (SITE_CONFIG env).url ++ "/posts/".toList ++ p.slug)
    ∧ ((posts.map Post.slug).Nodup →
        ((sitemapWith env now posts).map SitemapEntry.url).Nodup) := by
  have hmap : (sitemapWith env now posts).map SitemapEntry.url
      = (SITE_CONFIG env).url ::
          posts.map (fun p => (SITE_CONFIG env).url ++ "/posts/".toList ++ p.slug) := by
    simp [sitemapWith]
  refine ⟨hmap, fun hnd => ?_⟩
  rw [hmap]
  refine List.nodup_cons.2 ⟨?_, ?_⟩
  · intro hmem
    simp only [List.mem_map] at hmem
    obtain ⟨p, _, hp⟩ := hmem
    have := congrArg List.length hp
    simp [List.length_append] at this
  · have : posts.map (fun p => (SITE_CONFIG env).url ++ "/posts/".toList ++ p.slug)
        = (posts.map Post.slug).map
            (fun s => (SITE_CONFIG env).url ++ "/posts/".toList ++ s) := by
      simp [List.map_map]
    rw [this]
    refine hnd.map ?_
    intro a b hab
    simpa using hab

/-- Witness for `sitemap_root_and_posts_only` at a concrete 3-post
corpus with distinct slugs: the sitemap URLs are pairwise distinct. -/
theorem sitemap_root_and_posts_only_witness :
    ((sitemapWith none ("2026-01-01".toList) (testCorpus 3)).map
      SitemapEntry.url).Nodup :=
  (sitemap_root_and_posts_only none ("2026-01-01".toList) (testCorpus 3)).2
    (by decide)

/-- Claim C3: with no `openGraph` payload, `createMetadata` returns the
record holding exactly the title, the description and the canonical URL
of the path, with `openGraph := none` — no Open Graph social block (its
`twitter` card carries only the same title and description). -/
theorem createMetadata_without_social (env : Option Str)
    (title description path : Str) :
    createMetadata env
        { title := title, description := description, path := path,
          openGraph := none }
      = { title := title
          description := description
          alternates := { canonical := getCanonicalUrl env path }
          openGraph := none
          twitter := { card := "summary".toList, title := title,
                       description := description } } := rfl

/-- Claim C4: for every corpus, page size and 1-based page, the
returned `posts` is the slice
`orderedPosts[startIndex : startIndex + pageSize]` with
`startIndex = (page - 1) * pageSize`, and it is empty as soon as
`startIndex ≥ length`. -/
theorem paginate_returns_slice (posts : List Post) (size page : Nat)
    (_hp : 1 ≤ page) :
    (getPaginatedPostsWith posts size page).posts
        = (posts.drop ((page - 1) * size)).take size
    ∧ (posts.length ≤ (page - 1) * size →
        (getPaginatedPostsWith posts size page).posts = []) := by
  constructor
  · simp [getPaginatedPostsWith, jsSlice, Nat.add_sub_cancel_left]
  · intro h
    simp [getPaginatedPostsWith, jsSlice, List.drop_eq_nil_of_le h]

/-- Witness for `paginate_returns_slice`: page 2 of a 25-post corpus at
page size 10 is the slice of indices 10 to 19. -/
theorem paginate_returns_slice_witness :
    (getPaginatedPostsWith (testCorpus 25) 10 2).posts
      = ((testCorpus 25).drop ((2 - 1) * 10)).take 10 :=
  (paginate_returns_slice (testCorpus 25) 10 2 (by decide)).1

/-- Claim C5: for every page number beyond `totalPage`, the paginator
(a total function in this model — nothing is raised) returns an empty
`posts` list together with the same `totalPage` it computes for any
other page. -/
theorem paginate_beyond_last_page (posts : List Post) (size page : Nat)
    (hs : 0 < size)
    (hp : (getPaginatedPostsWith posts size 1).totalPage < page) :
    (getPaginatedPostsWith posts size page).posts = []
    ∧ (getPaginatedPostsWith posts size page).totalPage
        = (getPaginatedPostsWith posts size 1).totalPage := by
  have ht : (getPaginatedPostsWith posts size 1).totalPage
      = posts.length ⌈/⌉ size := by
    simp [getPaginatedPostsWith, Nat.ceilDiv_eq_add_pred_div]
  have hlen : posts.length ≤ size * (posts.length ⌈/⌉ size) := by
    simpa [smul_eq_mul] using le_smul_ceilDiv (b := posts.length) hs
  have hle : posts.length ≤ (page - 1) * size := by
    calc posts.length ≤ size * (posts.length ⌈/⌉ size) := hlen
      _ = (posts.length ⌈/⌉ size) * size := Nat.mul_comm _ _
      _ ≤ (page - 1) * size := by
          apply Nat.mul_le_mul_right
          rw [ht] at hp
          omega
  constructor
  · simp [getPaginatedPostsWith, jsSlice, List.drop_eq_nil_of_le hle]
  · rfl

/-- Witness for `paginate_beyond_last_page`: 25 posts at page size 10
give `totalPage = 3`, and page 4 yields an empty list. -/
theorem paginate_beyond_last_page_witness :
    (getPaginatedPostsWith (testCorpus 25) 10 4).posts = [] :=
  (paginate_beyond_last_page (testCorpus 25) 10 4 (by decide) (by decide)).1

/-- Claim C6: `getCanonicalUrl` concatenates the configured base URL
with the path normalized as the spec describes (leading slash added if
missing, trailing slash added if missing); in particular, with base URL
`https://example.com`, the path `/page/2` canonicalizes to
`https://example.com/page/2/`. -/
theorem canonical_url_concat (env : Option Str) (path : Str) :
    getCanonicalUrl env path = (SITE_CONFIG env).url ++ specNormalizePath path
    ∧ getCanonicalUrl (some ("https://example.com".toList)) ("/page/2".toList)
        = "https://example.com/page/2/".toList :=
  ⟨rfl, by decide⟩

/-- Claim C7: for a nonempty logical path with neither a leading nor a
trailing slash, the four input variants — bare, with leading slash,
with trailing slash, with both — produce the identical canonical URL. -/
theorem canonical_url_variants (env : Option Str) (p : Str) (hne : p ≠ [])
    (hs : jsStartsWith p ['/'] = false)
    (he : jsEndsWith p ['/'] = false) :
    getCanonicalUrl env ('/' :: p) = getCanonicalUrl env p
    ∧ getCanonicalUrl env (p ++ ['/']) = getCanonicalUrl env p
    ∧ getCanonicalUrl env ('/' :: p ++ ['/']) = getCanonicalUrl env p := by
  obtain ⟨c, cs, rfl⟩ := List.exists_cons_of_ne_nil hne
  have hbase := canonical_of_plain env (c :: cs) hne hs he
  have h1 : jsEndsWith ('/' :: (c :: cs)) ['/'] = false := by
    rw [endsWith_cons _ _ hne, he]
  have h2 := startsWith_append_slash c cs
  rw [hs] at h2
  have h3 : jsEndsWith ('/' :: ((c :: cs) ++ ['/'])) ['/'] = true := by
    have heq : ('/' :: ((c :: cs) ++ ['/']) : Str)
        = ('/' :: (c :: cs)) ++ ['/'] := rfl
    rw [heq, endsWith_append_slash]
  simp only [List.cons_append] at h2 h3
  refine ⟨?_, ?_, ?_⟩
  · rw [hbase]
    simp [getCanonicalUrl, startsWith_cons_slash, h1, List.append_assoc]
  · rw [hbase]
    simp [getCanonicalUrl, h2, h3, List.append_assoc]
  · rw [hbase]
    simp [getCanonicalUrl, startsWith_cons_slash, h3, List.append_assoc]

/-- Witness for `canonical_url_variants` at the spec's example: the
variants of `posts/foo` all canonicalize identically. -/
theorem canonical_url_variants_witness :
    getCanonicalUrl none ('/' :: "posts/foo".toList)
        = getCanonicalUrl none ("posts/foo".toList)
    ∧ getCanonicalUrl none ("posts/foo".toList ++ ['/'])
        = getCanonicalUrl none ("posts/foo".toList)
    ∧ getCanonicalUrl none ('/' :: "posts/foo".toList ++ ['/'])
        = getCanonicalUrl none ("posts/foo".toList) :=
  canonical_url_variants none ("posts/foo".toList) (by decide) (by decide)
    (by decide)

/-- Claim C8: the static-route enumeration yields exactly the page
numbers 2 through `totalPage` when `totalPage ≥ 2`, and the single
placeholder page 2 when `totalPage ≤ 1`. -/
theorem staticParams_enumerate (env : Option Str) (posts : List Post) :
    (2 ≤ (getPaginatedPostsWith posts (SITE_CONFIG env).postsPerPage 1).totalPage →
      (generateStaticParamsWith env posts).map PageParam.pageNum
        = (List.range' 2
            ((getPaginatedPostsWith posts (SITE_CONFIG env).postsPerPage
              1).totalPage - 1)).map jsString)
    ∧ ((getPaginatedPostsWith posts (SITE_CONFIG env).postsPerPage 1).totalPage ≤ 1 →
      (generateStaticParamsWith env posts).map PageParam.pageNum = [jsString 2]) := by
  simp only [generateStaticParamsWith]
  generalize (getPaginatedPostsWith posts (SITE_CONFIG env).postsPerPage 1).totalPage = t
  constructor
  · intro h2
    have hm : max (t - 1) 1 = t - 1 := by omega
    rw [hm, List.range'_eq_map_range]
    simp [List.map_map]
    intro a _
    rw [Nat.add_comm]
  · intro h1
    have hm : max (t - 1) 1 = 1 := by omega
    rw [hm]
    simp [List.range_succ]

/-- Witness for `staticParams_enumerate` on a 25-post corpus
(`totalPage = 3`): the enumerated page numbers are `["2", "3"]`. -/
theorem staticParams_enumerate_witness :
    (generateStaticParamsWith none (testCorpus 25)).map PageParam.pageNum
      = (List.range' 2
          ((getPaginatedPostsWith (testCorpus 25) (SITE_CONFIG none).postsPerPage
            1).totalPage - 1)).map jsString :=
  (staticParams_enumerate none (testCorpus 25)).1 (by decide)

/-- Claim C9: whenever the `openGraph` payload is present, the returned
record's Open Graph block carries as its sharing `url` exactly the
canonical URL stored in the record's `alternates.canonical` field. -/
theorem createMetadata_social_echoes_canonical (env : Option Str)
    (title description path : Str) (og : OpenGraphOptions) :
    ((createMetadata env
        { title := title, description := description, path := path,
          openGraph := some og }).openGraph.map OpenGraphBlock.url)
      = some ((createMetadata env
          { title := title, description := description, path := path,
            openGraph := some og }).alternates.canonical) := rfl

/-- Claim C10: the post index wired into the code is constantly empty —
`getAllPosts` returns the empty list, `getPostBySlug` returns `none`
for every slug, and the `posts` component of `getPaginatedPosts` is
empty for every page. -/
theorem post_index_empty :
    getAllPosts = ([] : List Post)
    ∧ (∀ slug : Str, getPostBySlug slug = none)
    ∧ ∀ (env : Option Str) (page : Nat),
        (getPaginatedPosts env page).posts = [] := by
  refine ⟨rfl, fun _ => rfl, fun env page => ?_⟩
  simp [getPaginatedPosts, getPaginatedPostsWith, getAllPosts, jsSlice]

end Blog
